import Mathlib

/-!
Verification of the REST API gateway core (`RestApi` class, `rest-api.mjs`).

The embedding models JS objects as association lists of string keys to string
values (the value payloads are opaque to the gateway's control flow), promises
as `Except`-valued outcomes, and the express routing callbacks
(`next()`, `next('route')`, `next(error)`, `res.sendStatus`) as explicit sum
types. External backend primitives (`authenticateUser`, `getObject`,
`getObjects`, the field setters, `$destroy`, `$exportContent`, `$export`) are
parameters of the handlers, constrained only by the contracts the spec states
for them.
-/

namespace RestApi

/-- A JS-style string-keyed object: ordered list of key/value entries.
Property reads observe the first entry with the given key. -/
abbrev Obj := List (String × String)

/-- Property read: `o[k]`, `undefined` (`none`) when the key is absent. -/
def lookupKey : Obj → String → Option String
  | [], _ => none
  | (k, v) :: rest, key => if k = key then some v else lookupKey rest key

/-- Property write `o[k] = v`: replaces the first entry with key `k` in place,
or appends a new entry when the key is absent (JS object assignment). -/
def setKey : Obj → String → String → Obj
  | [], key, v => [(key, v)]
  | (k, w) :: rest, key, v =>
      if k = key then (key, v) :: rest else (k, w) :: setKey rest key v

/-- JS string conversion of a property read: a missing property reads as
`undefined`, which stringifies to `"undefined"` under `+` concatenation. -/
def getProp (o : Obj) (k : String) : String :=
  (lookupKey o k).getD "undefined"

/-- lodash `pick(object, fields)`: object composed of the requested fields
that are present on `object`; absent names are silently skipped. -/
def pick (o : Obj) (fields : List String) : Obj :=
  fields.foldl
    (fun acc k =>
      match lookupKey o k with
      | some v => setKey acc k v
      | none => acc)
    []

theorem lookupKey_setKey (o : Obj) (k v key : String) :
    lookupKey (setKey o k v) key = if k = key then some v else lookupKey o key := by
  induction o with
  | nil =>
      by_cases h : k = key <;> simp [setKey, lookupKey, h]
  | cons hd tl ih =>
      obtain ⟨k0, v0⟩ := hd
      by_cases h0 : k0 = k
      · subst h0
        by_cases h : k0 = key <;> simp [setKey, lookupKey, h]
      · by_cases h : k0 = key
        · subst h
          have hk : ¬ k = k0 := fun h => h0 h.symm
          simp [setKey, lookupKey, h0, hk]
        · simp [setKey, lookupKey, h0, h, ih]

theorem lookupKey_pick_aux (o : Obj) (fields : List String) (acc : Obj) (key : String) :
    lookupKey
      (fields.foldl
        (fun acc k =>
          match lookupKey o k with
          | some v => setKey acc k v
          | none => acc)
        acc) key =
    if key ∈ fields ∧ (lookupKey o key).isSome then lookupKey o key
    else lookupKey acc key := by
  induction fields generalizing acc with
  | nil => simp
  | cons f rest ih =>
      simp only [List.foldl_cons]
      rw [ih]
      by_cases hmem : key ∈ rest ∧ (lookupKey o key).isSome
      · simp [hmem, List.mem_cons, hmem.1, hmem.2]
      · simp only [hmem, if_false]
        by_cases hf : f = key
        · subst hf
          cases ho : lookupKey o f with
          | none => simp [ho, List.mem_cons, hmem]
          | some v =>
              simp only [lookupKey_setKey, if_pos rfl]
              have : f ∈ f :: rest ∧ (lookupKey o f).isSome := ⟨List.mem_cons_self f rest, by simp [ho]⟩
              simp [this, ho]
        · have hcond : ¬ ((key = f ∨ key ∈ rest) ∧ (lookupKey o key).isSome = true) := by
            intro ⟨hm, hs⟩
            rcases hm with h | h
            · exact hf h.symm
            · exact hmem ⟨h, hs⟩
          cases ho : lookupKey o f with
          | none =>
              simp only [List.mem_cons]
              rw [if_neg hcond]
          | some v =>
              rw [lookupKey_setKey, if_neg hf]
              simp only [List.mem_cons]
              rw [if_neg hcond]

theorem lookupKey_pick (o : Obj) (fields : List String) (key : String) :
    lookupKey (pick o fields) key =
      if key ∈ fields ∧ (lookupKey o key).isSome then lookupKey o key else none := by
  unfold pick
  rw [lookupKey_pick_aux]
  simp [lookupKey]

/-! ### Resource projection and list serialization (`sendObjects`) -/

/-- `makeUrl = object => basePath + '/' + object.id`. -/
def makeUrl (basePath : String) (o : Obj) : String :=
  basePath ++ "/" ++ getProp o "id"

/-- Accumulator-based comma splitter (structural recursion, so that concrete
instances reduce). -/
def splitCommaAux : List Char → List Char → List String
  | [], acc => [String.mk acc.reverse]
  | c :: rest, acc =>
      if c = ',' then String.mk acc.reverse :: splitCommaAux rest []
      else splitCommaAux rest (c :: acc)

/-- JS `fields.split(',')` on the raw `fields` query value: splits at every
comma, keeping empty segments (`''` splits to `['']`). -/
def splitFields (s : String) : List String :=
  splitCommaAux s.toList []

/-- Body of the `fields !== undefined` branch of `sendObjects`:
`object = pick(object, fields); object.href = url`. -/
def projectObject (basePath : String) (fields : List String) (o : Obj) : Obj :=
  setKey (pick o fields) "href" (makeUrl basePath o)

/-- One projected list element: either the href string alone, or a
field-projected object. -/
inductive Rendered
  | href (url : String)
  | obj (o : Obj)
  deriving DecidableEq

/-- The `results` value computed by `sendObjects` before the framing branch. -/
def renderResults (basePath : String) (fieldsQ : Option String) (objects : List Obj) :
    List Rendered :=
  match fieldsQ with
  | some fs => objects.map (fun o => .obj (projectObject basePath (splitFields fs) o))
  | none => objects.map (fun o => .href (makeUrl basePath o))

/-- The response of `sendObjects`: the same element sequence under one of two
framings — newline-delimited JSON (one value per line, `Content-Type:
application/x-ndjson`) or a single buffered JSON array.
The per-line emission of `createNdJsonStream` is modelled from the spec:
its source (`_createNdJsonStream.mjs`) is not included; the spec states each
element is serialized independently and written as its own line, in order. -/
inductive ListOutput
  | ndjson (lines : List Rendered)
  | jsonArray (elems : List Rendered)
  deriving DecidableEq

/-- `sendObjects(objects, req, res)`: projects the objects, then frames them
as ndjson when the `ndjson` query parameter is present (`!== undefined`),
else as a buffered JSON array. -/
def sendObjects (objects : List Obj) (basePath : String) (fieldsQ ndjsonQ : Option String) :
    ListOutput :=
  let results := renderResults basePath fieldsQ objects
  if ndjsonQ.isSome then .ndjson results else .jsonArray results

/-- The sequence of projected elements carried by a response, independent of
framing. -/
def elementsOf : ListOutput → List Rendered
  | .ndjson lines => lines
  | .jsonArray elems => elems

/-! ### Collection table and path-parameter resolution -/

/-- The fixed list of backend resource types (`types` in the source). -/
def types : List String :=
  ["host", "network", "pool", "SR", "VBD", "VDI-snapshot", "VDI", "VIF",
   "VM-snapshot", "VM-template", "VM"]

/-- A collection descriptor: `{ id, isCorrectType, type }` with
`id = type.toLocaleLowerCase() + 's'`. `isCorrectType` is the derived
membership predicate below. -/
structure CollectionDescriptor where
  id : String
  type : String
  deriving DecidableEq

/-- `isCorrectType: _ => _.type === type`; a resource with no `type`
property compares `undefined === type`, which is false. -/
def isCorrectType (c : CollectionDescriptor) (o : Obj) : Bool :=
  match lookupKey o "type" with
  | some t => t = c.type
  | none => false

/-- ASCII lower-casing of one character, as `toLocaleLowerCase` acts on the
ASCII type names above. -/
def jsLowerChar (c : Char) : Char :=
  if 'A' ≤ c ∧ c ≤ 'Z' then Char.ofNat (c.toNat + 32) else c

/-- `type.toLocaleLowerCase()` on the ASCII type names (structural recursion
over the characters, so that concrete instances reduce). -/
def jsToLower (s : String) : String :=
  String.mk (s.toList.map jsLowerChar)

/-- Entry construction inside `Object.fromEntries(types.map(...))`:
`id = type.toLocaleLowerCase() + 's'`. -/
def mkCollection (t : String) : CollectionDescriptor :=
  { id := jsToLower t ++ "s", type := t }

/-- The descriptor table keyed by collection id (`collections` in the source). -/
def collections : List (String × CollectionDescriptor) :=
  types.map (fun t => ((mkCollection t).id, mkCollection t))

/-- `collections[id]`: exact, case-sensitive lookup. -/
def lookupCollection (id : String) : Option CollectionDescriptor :=
  (collections.find? (fun p => p.1 = id)).map (·.2)

/-- Backend errors seen during object resolution. -/
inductive BackendErr
  | noSuchObject (id type : String)
  | other (msg : String)
  deriving DecidableEq

/-- Outcome of a path-parameter validator: `next()` with a resolved value,
`next('route')` (fall through to alternative routes, ultimately a standard
not-found), or `next(error)` (server error). -/
inductive ParamOutcome (α : Type)
  | matched (a : α)
  | fallthrough
  | serverError (e : BackendErr)
  deriving DecidableEq

/-- The `api.param('collection')` validator: unknown id → `next('route')`. -/
def collectionParam (id : String) : ParamOutcome CollectionDescriptor :=
  match lookupCollection id with
  | none => .fallthrough
  | some c => .matched c

/-- The `api.param('object')` validator: fetches the object by `(id, type)`
from the backend (`app.getObject`); a `noSuchObject` error carrying exactly
that `(id, type)` pair → `next('route')`; any other error → `next(error)`. -/
def objectParam (getObject : String → String → Except BackendErr Obj)
    (c : CollectionDescriptor) (oid : String) : ParamOutcome Obj :=
  match getObject oid c.type with
  | .ok o => .matched o
  | .error (.noSuchObject i t) =>
      if i = oid ∧ t = c.type then .fallthrough
      else .serverError (.noSuchObject i t)
  | .error (.other m) => .serverError (.other m)

/-! ### Access gate (authentication middleware) -/

/-- The authenticated principal; only its permission level matters here. -/
structure User where
  permission : String
  deriving DecidableEq

/-- Failures of the external `authenticateUser` call. -/
inductive AuthError
  | invalidCredentials
  | other (msg : String)
  deriving DecidableEq

/-- What the gate middleware does with a request: call `next()` (route
handlers run), respond with a status and halt, or `next(error)` to the
generic error handler (route handlers do not run). -/
inductive GateDecision
  | runHandlers (u : User)
  | respondStatus (n : Nat)
  | errorOut (e : AuthError)
  deriving DecidableEq

/-- JS nullish coalescing `a ?? b`. -/
def nullishCoalesce (a b : Option String) : Option String :=
  match a with
  | some v => some v
  | none => b

/-- The `api.use` authentication middleware: authenticates
`cookies.authenticationToken ?? cookies.token`; on success continues only for
`permission === 'admin'`, else `sendStatus(401)`; an `invalidCredentials`
failure → `sendStatus(401)`; any other failure → `next(error)`. -/
def authMiddleware (authenticateUser : Option String → Except AuthError User)
    (authenticationTokenCookie tokenCookie : Option String) : GateDecision :=
  match authenticateUser (nullishCoalesce authenticationTokenCookie tokenCookie) with
  | .ok u => if u.permission = "admin" then .runHandlers u else .respondStatus 401
  | .error .invalidCredentials => .respondStatus 401
  | .error e => .errorOut e

/-! ### Filter engine and the collection listing route -/

/-- Modelled from the spec: `every` from the predicates helper (its package is
part of this repository but not included here) — the logical AND of the given
predicates, an absent (`undefined`) predicate being ignored, i.e. treated as
always true. -/
def every (p : Obj → Bool) (q : Option (Obj → Bool)) : Obj → Bool :=
  fun o => p o && (match q with | some qf => qf o | none => true)

/-- Errors a list-route request can end in; `parseError` is raised while
evaluating the filter, `backendError` by the backend `getObjects` call. Both
reach the generic error handler through the async wrapper's `next(error)`. -/
inductive ApiError
  | parseError
  | backendError (msg : String)
  deriving DecidableEq

/-- `handleOptionalUserFilter = filter => filter && CM.parse(filter).createPredicate()`:
an absent filter (and the falsy empty string, which the `&&` short-circuit
returns unchanged) yields no predicate; otherwise the expression-matcher
parses the text into a predicate or throws. The expression-matcher grammar is
out of scope (its package is part of this repository but not included here),
so the parser is a parameter. -/
def handleOptionalUserFilter (parse : String → Except Unit (Obj → Bool))
    (filter : Option String) : Except Unit (Option (Obj → Bool)) :=
  match filter with
  | none => .ok none
  | some s => if s = "" then .ok none else (parse s).map some

/-- Modelled from the spec: the backend `getObjects({filter, limit})` contract
(out-of-scope collaborator) — returns the stored resources satisfying the
predicate, at most `limit` of them when a limit is given. -/
def getObjects (store : List Obj) (filter : Obj → Bool) (limit : Option Nat) : List Obj :=
  match limit with
  | some n => (store.filter filter).take n
  | none => store.filter filter

/-- The `GET /:collection` handler: builds the predicate
`every(req.collection.isCorrectType, handleOptionalUserFilter(query.filter))`
— the filter text is parsed (and may throw) before the backend call — then
fetches the objects. The backend outcome is a parameter (`.error` for an
operational backend failure). Errors propagate via the async wrapper's
`next(error)`. -/
def listHandler (parse : String → Except Unit (Obj → Bool))
    (backend : Except String (List Obj)) (c : CollectionDescriptor)
    (filterQ : Option String) (limitQ : Option Nat) : Except ApiError (List Obj) :=
  match handleOptionalUserFilter parse filterQ with
  | .error _ => .error .parseError
  | .ok userPred =>
      match backend with
      | .error m => .error (.backendError m)
      | .ok store => .ok (getObjects store (every (isCorrectType c) userPred) limitQ)

/-- Modelled from the spec: the generic error handler (out of scope in the
source) maps a filter parse failure to a client error status and a backend
operational failure to a server error status. -/
def errorStatus : ApiError → Nat
  | .parseError => 400
  | .backendError _ => 500

/-! ### Mutation handler (`PATCH /:collection/:object`) -/

/-- A status-only express response: `res.sendStatus(n)` — the handler
supplies no body of its own. -/
structure StatusResponse where
  status : Nat
  body : String
  deriving DecidableEq

def sendStatus (n : Nat) : StatusResponse :=
  { status := n, body := "" }

/-- JS `await` applied to a plain array: an array is not a thenable, so
`await` resolves immediately with the array itself — it does not join the
promises the array contains, and their rejections are not observed. -/
def awaitArray (a : List (Except String Unit)) : Except String (List (Except String Unit)) :=
  .ok a

deriving instance DecidableEq for Except

/-- Result of one PATCH request: which backend field-set calls were issued,
their eventual outcomes, and the response sent. -/
structure PatchResult where
  issued : List (String × String)
  outcomes : List (Except String Unit)
  response : StatusResponse
  deriving DecidableEq

/-- The PATCH handler: for each of the whitelisted keys `name_description`,
`name_label` present in the body, pushes `obj['set_' + key](value)`; then
`await promises` (the array itself, see `awaitArray`) and `sendStatus(200)`.
`setField k v` is the eventual outcome of the backend call `set_k(v)`. -/
def patchHandler (setField : String → String → Except String Unit) (body : Obj) :
    PatchResult :=
  let issued := (["name_description", "name_label"]).filterMap
    (fun k => (lookupKey body k).map (fun v => (k, v)))
  let promises := issued.map (fun kv => setField kv.1 kv.2)
  match awaitArray promises with
  | .ok _ => { issued := issued, outcomes := promises, response := sendStatus 200 }
  | .error _ => { issued := issued, outcomes := promises, response := sendStatus 500 }

/-! ### Destroy route (`DELETE`) -/

/-- The collection ids the DELETE route pattern
`/:collection(vdis|vdi-snapshots|vms|vm-snapshots|vm-templates)/:object`
accepts. -/
def deleteEligible : List String :=
  ["vdis", "vdi-snapshots", "vms", "vm-snapshots", "vm-templates"]

/-- Whether the DELETE route matches a given collection path segment. -/
def deleteRouteMatches (collection : String) : Bool :=
  deleteEligible.contains collection

/-- The DELETE handler: `await req.xapiObject.$destroy(); res.sendStatus(200)`;
a destroy failure propagates through the async wrapper as `next(error)`. -/
def deleteHandler (destroy : Except String Unit) : Except String StatusResponse :=
  destroy.map (fun _ => sendStatus 200)

/-! ### Export transfer handlers -/

/-- A backend transfer stream: declared status line, headers and body bytes. -/
structure BackendStream where
  statusCode : Nat
  statusMessage : Option String
  headers : Obj
  body : List String

/-- One outbound response event: the single `writeHead` call, or one piped
body chunk. -/
inductive ResEvent
  | head (status : Nat) (msg : String) (headers : Obj)
  | chunk (c : String)
  deriving DecidableEq

/-- Shared tail of both export handlers:
`stream.headers['content-disposition'] = 'attachment'`, then
`res.writeHead(stream.statusCode, stream.statusMessage != null ?
stream.statusMessage : '', stream.headers)`, then pipe the body through. -/
def exportResponse (s : BackendStream) : List ResEvent :=
  .head s.statusCode (s.statusMessage.getD "") (setKey s.headers "content-disposition" "attachment")
    :: s.body.map .chunk

/-- `GET /:collection(vdis|vdi-snapshots)/:object.:format(vhd|raw)`: obtains
the stream from `$exportContent({ format })` and forwards it. -/
def vdiExportHandler (exportContent : String → BackendStream) (format : String) :
    List ResEvent :=
  exportResponse (exportContent format)

/-- `GET /:collection(vms|vm-snapshots|vm-templates)/:object.xva`: obtains the
stream from `$export({ compress })` and forwards it. -/
def vmExportHandler (exportStream : Option String → BackendStream) (compress : Option String) :
    List ResEvent :=
  exportResponse (exportStream compress)

/-! ### Claim theorems -/

/-- C1: code-bug evidence. The PATCH handler issues the backend field-set
call for the present whitelisted field, yet responds success (status 200)
even though that call fails: `await promises` awaits the plain array — not
the promises it contains — so the handler neither waits for the issued calls
nor surfaces their failure as a server error. -/
theorem C1_patch_success_despite_backend_failure :
    (patchHandler (fun _ _ => .error "backend failure") [("name_label", "x")]).issued
      = [("name_label", "x")] ∧
    (patchHandler (fun _ _ => .error "backend failure") [("name_label", "x")]).outcomes
      = [.error "backend failure"] ∧
    (patchHandler (fun _ _ => .error "backend failure") [("name_label", "x")]).response
      = sendStatus 200 := by
  refine ⟨rfl, rfl, rfl⟩

/-- C8: for the same resource set and same `fields` parameter, the streamed
ndjson response and the buffered JSON array response carry exactly the same
sequence of projected elements; only the framing constructor differs. -/
theorem C8_ndjson_buffered_same_elements (objects : List Obj) (basePath : String)
    (fieldsQ : Option String) (q : String) :
    elementsOf (sendObjects objects basePath fieldsQ (some q)) =
      elementsOf (sendObjects objects basePath fieldsQ none) ∧
    sendObjects objects basePath fieldsQ (some q) =
      .ndjson (renderResults basePath fieldsQ objects) ∧
    sendObjects objects basePath fieldsQ none =
      .jsonArray (renderResults basePath fieldsQ objects) := by
  refine ⟨rfl, rfl, rfl⟩

/-- C9: the DELETE route matches exactly the destroy-eligible collections
(`vdis`, `vdi-snapshots`, `vms`, `vm-snapshots`, `vm-templates`); in
particular it does not match `hosts`, `networks`, `pools` or `srs`; when it
matches and the backend destroy succeeds, the response is status 200 with an
empty body. -/
theorem C9_delete_route_restricted (c : String) (destroy : Except String Unit) :
    (deleteRouteMatches c = true ↔
      c = "vdis" ∨ c = "vdi-snapshots" ∨ c = "vms" ∨ c = "vm-snapshots" ∨ c = "vm-templates") ∧
    deleteRouteMatches "hosts" = false ∧
    deleteRouteMatches "networks" = false ∧
    deleteRouteMatches "pools" = false ∧
    deleteRouteMatches "srs" = false ∧
    (destroy = .ok () → deleteHandler destroy = .ok { status := 200, body := "" }) := by
  refine ⟨?_, by decide, by decide, by decide, by decide, ?_⟩
  · simp [deleteRouteMatches, deleteEligible, List.contains_eq_any_beq]
  · intro h
    subst h
    rfl

/-- C9 witness: a concrete destroy-eligible request. -/
theorem C9_delete_route_restricted_witness :
    deleteRouteMatches "vdis" = true ∧
    deleteHandler (.ok ()) = .ok { status := 200, body := "" } :=
  ⟨(C9_delete_route_restricted "vdis" (.ok ())).1.mpr (Or.inl rfl),
   (C9_delete_route_restricted "vdis" (.ok ())).2.2.2.2.2 rfl⟩

/-- C10: when the requested fields include `href` and the resource itself has
an `href` property, the projected output's `href` is the synthesized link
`basePath + '/' + resource.id` — the assignment `object.href = url` after
`pick` always overwrites the resource's own `href` value. -/
theorem C10_href_overwrites_resource_field (basePath : String) (o : Obj)
    (fields : List String) (v : String)
    (_hmem : "href" ∈ fields) (_hv : lookupKey o "href" = some v) :
    lookupKey (projectObject basePath fields o) "href" = some (makeUrl basePath o) ∧
    (v ≠ makeUrl basePath o →
      lookupKey (projectObject basePath fields o) "href" ≠ some v) := by
  have h : lookupKey (projectObject basePath fields o) "href" = some (makeUrl basePath o) := by
    unfold projectObject
    rw [lookupKey_setKey]
    simp
  refine ⟨h, fun hne hc => hne ?_⟩
  rw [h] at hc
  exact (Option.some.inj hc).symm

/-- C10 witness: a resource carrying its own `href` property, projected with
`fields=href,name`: the output href is the synthesized link, not `"orig"`. -/
theorem C10_href_overwrites_resource_field_witness :
    lookupKey (projectObject "/rest/v0/vms" ["href", "name"]
      [("id", "1"), ("name", "n"), ("href", "orig")]) "href" = some "/rest/v0/vms/1" ∧
    lookupKey (projectObject "/rest/v0/vms" ["href", "name"]
      [("id", "1"), ("name", "n"), ("href", "orig")]) "href" ≠ some "orig" := by
  have h := C10_href_overwrites_resource_field "/rest/v0/vms"
    [("id", "1"), ("name", "n"), ("href", "orig")] ["href", "name"] "orig"
    (by decide) (by decide)
  exact ⟨h.1, h.2 (by decide)⟩

/-- C4: the access gate responds 401 to an invalid-credentials failure and to
any authenticated principal whose permission is not `admin`, never running the
route handlers in those cases; conversely the route handlers run only when the
token from `authenticationToken ?? token` authenticates to an admin
principal. -/
theorem C4_gate_admits_only_admin (authenticateUser : Option String → Except AuthError User)
    (atCookie tCookie : Option String) :
    (authenticateUser (nullishCoalesce atCookie tCookie) = .error .invalidCredentials →
      authMiddleware authenticateUser atCookie tCookie = .respondStatus 401) ∧
    (∀ u, authenticateUser (nullishCoalesce atCookie tCookie) = .ok u →
      u.permission ≠ "admin" →
      authMiddleware authenticateUser atCookie tCookie = .respondStatus 401) ∧
    (∀ u, authMiddleware authenticateUser atCookie tCookie = .runHandlers u →
      authenticateUser (nullishCoalesce atCookie tCookie) = .ok u ∧
      u.permission = "admin") := by
  refine ⟨?_, ?_, ?_⟩
  · intro h
    simp [authMiddleware, h]
  · intro u h hperm
    simp [authMiddleware, h, hperm]
  · intro u h
    cases ha : authenticateUser (nullishCoalesce atCookie tCookie) with
    | ok w =>
        by_cases hp : w.permission = "admin"
        · have he : authMiddleware authenticateUser atCookie tCookie = .runHandlers w := by
            simp [authMiddleware, ha, hp]
          rw [he] at h
          injection h with h2
          subst h2
          exact ⟨rfl, hp⟩
        · have he : authMiddleware authenticateUser atCookie tCookie = .respondStatus 401 := by
            simp [authMiddleware, ha, hp]
          rw [he] at h
          cases h
    | error e =>
        cases e with
        | invalidCredentials =>
            have he : authMiddleware authenticateUser atCookie tCookie = .respondStatus 401 := by
              simp [authMiddleware, ha]
            rw [he] at h
            cases h
        | other msg =>
            have he : authMiddleware authenticateUser atCookie tCookie = .errorOut (.other msg) := by
              simp [authMiddleware, ha]
            rw [he] at h
            cases h

/-- A concrete authenticator: token `root` is an admin, token `weak` is a
non-admin principal, anything else is invalid credentials. -/
def authExample : Option String → Except AuthError User :=
  fun t =>
    if t = some "root" then .ok { permission := "admin" }
    else if t = some "weak" then .ok { permission := "none" }
    else .error .invalidCredentials

/-- C4 witness: under `authExample`, a missing token gets 401, a valid
non-admin principal gets 401, and the handlers run only for the admin
principal. -/
theorem C4_gate_admits_only_admin_witness :
    authMiddleware authExample none none = .respondStatus 401 ∧
    authMiddleware authExample none (some "weak") = .respondStatus 401 ∧
    (authExample (nullishCoalesce (some "root") (some "weak")) =
        .ok { permission := "admin" } ∧
      User.permission { permission := "admin" } = "admin") := by
  refine ⟨?_, ?_, ?_⟩
  · exact (C4_gate_admits_only_admin authExample none none).1 (by decide)
  · exact (C4_gate_admits_only_admin authExample none (some "weak")).2.1
      { permission := "none" } (by decide) (by decide)
  · exact (C4_gate_admits_only_admin authExample (some "root") (some "weak")).2.2
      { permission := "admin" } (by decide)

/-- C5: an unknown collection segment (exact, case-sensitive lookup in the
fixed table) makes the `collection` validator fall through as "no matching
route"; a backend `noSuchObject` error for exactly the requested `(id, type)`
pair makes the `object` validator fall through likewise; any other backend
error during object resolution is surfaced as a server error. -/
theorem C5_param_fallthrough (id oid m : String)
    (g : String → String → Except BackendErr Obj) (c : CollectionDescriptor) :
    (lookupCollection id = none ↔ ∀ t ∈ types, (mkCollection t).id ≠ id) ∧
    (lookupCollection id = none → collectionParam id = .fallthrough) ∧
    (∀ d, lookupCollection id = some d → collectionParam id = .matched d) ∧
    (g oid c.type = .error (.noSuchObject oid c.type) → objectParam g c oid = .fallthrough) ∧
    (g oid c.type = .error (.other m) → objectParam g c oid = .serverError (.other m)) := by
  refine ⟨?_, ?_, ?_, ?_, ?_⟩
  · unfold lookupCollection collections
    simp [List.find?_eq_none]
  · intro h
    simp [collectionParam, h]
  · intro d h
    simp [collectionParam, h]
  · intro h
    simp [objectParam, h]
  · intro h
    simp [objectParam, h]

/-- C5 witness: `Hosts` (wrong case) falls through; `vms` matches; a
`noSuchObject` backend error falls through; another backend error is a server
error. -/
theorem C5_param_fallthrough_witness :
    collectionParam "Hosts" = .fallthrough ∧
    collectionParam "vms" = .matched (mkCollection "VM") ∧
    objectParam (fun i t => .error (.noSuchObject i t)) (mkCollection "VM") "abc" = .fallthrough ∧
    objectParam (fun _ _ => .error (.other "backend down")) (mkCollection "VM") "abc"
      = .serverError (.other "backend down") := by
  refine ⟨?_, ?_, ?_, ?_⟩
  · exact (C5_param_fallthrough "Hosts" "abc" "backend down"
      (fun i t => .error (.noSuchObject i t)) (mkCollection "VM")).2.1 (by decide)
  · exact (C5_param_fallthrough "vms" "abc" "backend down"
      (fun i t => .error (.noSuchObject i t)) (mkCollection "VM")).2.2.1
      (mkCollection "VM") (by decide)
  · exact (C5_param_fallthrough "vms" "abc" "backend down"
      (fun i t => .error (.noSuchObject i t)) (mkCollection "VM")).2.2.2.1 rfl
  · exact (C5_param_fallthrough "vms" "abc" "backend down"
      (fun _ _ => .error (.other "backend down")) (mkCollection "VM")).2.2.2.2 rfl

/-- C6: both export handlers answer with a single `writeHead` event first —
carrying the backend stream's declared status code, status message and header
set (the gateway adds only `content-disposition: attachment`, leaving every
other header untouched) — followed by exactly the stream's body chunks,
unmodified and in order; the status is the backend's, never synthesized. -/
theorem C6_export_mirrors_backend (exportContent : String → BackendStream)
    (exportStream : Option String → BackendStream) (format : String)
    (compress : Option String) (s : BackendStream) (k : String) :
    vdiExportHandler exportContent format =
      .head (exportContent format).statusCode ((exportContent format).statusMessage.getD "")
        (setKey (exportContent format).headers "content-disposition" "attachment")
      :: (exportContent format).body.map .chunk ∧
    vmExportHandler exportStream compress =
      .head (exportStream compress).statusCode ((exportStream compress).statusMessage.getD "")
        (setKey (exportStream compress).headers "content-disposition" "attachment")
      :: (exportStream compress).body.map .chunk ∧
    lookupKey (setKey s.headers "content-disposition" "attachment") "content-disposition"
      = some "attachment" ∧
    (k ≠ "content-disposition" →
      lookupKey (setKey s.headers "content-disposition" "attachment") k
        = lookupKey s.headers k) := by
  refine ⟨rfl, rfl, ?_, ?_⟩
  · rw [lookupKey_setKey]
    simp
  · intro hk
    rw [lookupKey_setKey, if_neg (fun h => hk h.symm)]

/-- A concrete backend transfer stream: partial-content status, one header,
two body chunks. -/
def sampleStream : BackendStream where
  statusCode := 206
  statusMessage := some "Partial Content"
  headers := [("content-length", "4")]
  body := ["ab", "cd"]

/-- A trivial backend transfer stream. -/
def emptyStream : BackendStream where
  statusCode := 200
  statusMessage := none
  headers := []
  body := []

/-- C6 witness: `sampleStream` (status 206, one extra header, two chunks) is
mirrored verbatim, with `content-disposition` added and the other header
untouched. -/
theorem C6_export_mirrors_backend_witness :
    vdiExportHandler (fun _ => sampleStream) "vhd" =
      .head 206 "Partial Content"
        [("content-length", "4"), ("content-disposition", "attachment")]
      :: [ResEvent.chunk "ab", ResEvent.chunk "cd"] ∧
    lookupKey (setKey sampleStream.headers "content-disposition" "attachment")
      "content-length" = some "4" := by
  have h := C6_export_mirrors_backend (fun _ => sampleStream) (fun _ => emptyStream)
    "vhd" none sampleStream "content-length"
  exact ⟨h.1, (h.2.2.2 (by decide)).trans (by decide)⟩

/-- Everything `getObjects` returns satisfies the predicate it was given. -/
theorem mem_getObjects {store : List Obj} {pred : Obj → Bool} {limitQ : Option Nat}
    {o : Obj} (h : o ∈ getObjects store pred limitQ) : pred o = true := by
  unfold getObjects at h
  cases limitQ with
  | none => exact (List.mem_filter.mp h).2
  | some n => exact (List.mem_filter.mp (List.take_subset n _ h)).2

/-- C2: a malformed filter on the list route makes the request fail with a
parse error — raised while the filter text is parsed, before any backend
result is consumed — and the (spec-modelled) generic error handler maps it to
a client 4xx status, distinct from the 500 used for backend operational
failures. -/
theorem C2_parse_failure_client_error (parse : String → Except Unit (Obj → Bool))
    (backend : Except String (List Obj)) (c : CollectionDescriptor) (s : String)
    (limitQ : Option Nat) (hs : s ≠ "") (hp : parse s = .error ()) :
    listHandler parse backend c (some s) limitQ = .error .parseError ∧
    400 ≤ errorStatus .parseError ∧ errorStatus .parseError < 500 ∧
    (∀ msg, errorStatus (.backendError msg) = 500) := by
  refine ⟨?_, by simp [errorStatus], by simp [errorStatus], fun msg => by simp [errorStatus]⟩
  simp [listHandler, handleOptionalUserFilter, hs, hp, Except.map]

/-- C2 witness: a parser rejecting `(bad` makes the list request a parse
error even though the backend would have answered. -/
theorem C2_parse_failure_client_error_witness :
    listHandler (fun _ => .error ()) (.ok []) (mkCollection "VM") (some "(bad") none
      = .error .parseError ∧
    400 ≤ errorStatus .parseError ∧ errorStatus .parseError < 500 ∧
    (∀ msg, errorStatus (.backendError msg) = 500) :=
  C2_parse_failure_client_error (fun _ => .error ()) (.ok []) (mkCollection "VM")
    "(bad" none (by decide) rfl

/-- C3: the predicate the list route passes to the backend `getObjects` call
is `every(isCorrectType, userFilter)` — the logical AND of the collection
membership predicate and the user filter, an absent filter contributing no
predicate — hence every resource of a successful listing satisfies the
membership predicate and, when a user filter was parsed, that filter too. -/
theorem C3_listing_filtered_by_membership_and_user_filter
    (parse : String → Except Unit (Obj → Bool)) (backend : Except String (List Obj))
    (c : CollectionDescriptor) (filterQ : Option String) (limitQ : Option Nat)
    (userPred : Option (Obj → Bool)) (result : List Obj)
    (hf : handleOptionalUserFilter parse filterQ = .ok userPred)
    (hl : listHandler parse backend c filterQ limitQ = .ok result) :
    (∃ store, backend = .ok store ∧
      result = getObjects store (every (isCorrectType c) userPred) limitQ) ∧
    (filterQ = none → userPred = none) ∧
    (∀ o ∈ result, every (isCorrectType c) userPred o = true) ∧
    (∀ o ∈ result, isCorrectType c o = true ∧ ∀ q, userPred = some q → q o = true) := by
  have hstore : ∃ store, backend = .ok store ∧
      result = getObjects store (every (isCorrectType c) userPred) limitQ := by
    unfold listHandler at hl
    rw [hf] at hl
    cases backend with
    | error msg => simp at hl
    | ok store =>
        refine ⟨store, rfl, ?_⟩
        simpa using hl.symm
  refine ⟨hstore, ?_, ?_, ?_⟩
  · intro hnone
    subst hnone
    simp [handleOptionalUserFilter] at hf
    exact hf.symm
  · intro o ho
    obtain ⟨store, _, hres⟩ := hstore
    subst hres
    exact mem_getObjects ho
  · intro o ho
    obtain ⟨store, _, hres⟩ := hstore
    subst hres
    have h := mem_getObjects ho
    unfold every at h
    rw [Bool.and_eq_true] at h
    refine ⟨h.1, fun q hq => ?_⟩
    subst hq
    exact h.2

/-- C3 witness: a store with mixed resource types, filtered for the `vms`
collection with a user filter matching `name = a`; the listing keeps exactly
the VM named `a`, which satisfies both predicates. -/
theorem C3_listing_filtered_by_membership_and_user_filter_witness :
    (∃ store, (Except.ok [[("type", "VM"), ("name", "a")], [("type", "host"), ("name", "a")],
        [("type", "VM"), ("name", "b")]] : Except String (List Obj)) = .ok store ∧
      [[("type", "VM"), ("name", "a")]] =
        getObjects store
          (every (isCorrectType (mkCollection "VM"))
            (some (fun o => decide (lookupKey o "name" = some "a")))) none) ∧
    ((some "name:a" : Option String) = none →
      (some (fun o => decide (lookupKey o "name" = some "a")) : Option (Obj → Bool)) = none) ∧
    (∀ o ∈ [[("type", "VM"), ("name", "a")]],
      every (isCorrectType (mkCollection "VM"))
        (some (fun o => decide (lookupKey o "name" = some "a"))) o = true) ∧
    (∀ o ∈ [[("type", "VM"), ("name", "a")]],
      isCorrectType (mkCollection "VM") o = true ∧
      ∀ q, (some (fun o => decide (lookupKey o "name" = some "a")) : Option (Obj → Bool))
          = some q → q o = true) :=
  C3_listing_filtered_by_membership_and_user_filter
    (fun s => if s = "name:a" then .ok (fun o => decide (lookupKey o "name" = some "a"))
      else .error ())
    (.ok [[("type", "VM"), ("name", "a")], [("type", "host"), ("name", "a")],
      [("type", "VM"), ("name", "b")]])
    (mkCollection "VM") (some "name:a") none
    (some (fun o => decide (lookupKey o "name" = some "a")))
    [[("type", "VM"), ("name", "a")]] rfl rfl

/-- C7: with no `fields` parameter each list element renders as the
resource's href string alone, `basePath + '/' + resource.id`; with a
comma-separated `fields` list each element renders as an object whose keys
are exactly the requested names present on the resource plus `href` — a
requested name absent from the resource is silently omitted, and `href` maps
to the synthesized link. -/
theorem C7_projection_shape (basePath fs : String) (objects : List Obj) (o : Obj)
    (k v : String) :
    renderResults basePath none objects =
      objects.map (fun ob => .href (makeUrl basePath ob)) ∧
    (∀ oid, lookupKey o "id" = some oid → makeUrl basePath o = basePath ++ "/" ++ oid) ∧
    renderResults basePath (some fs) objects =
      objects.map (fun ob => .obj (projectObject basePath (splitFields fs) ob)) ∧
    (lookupKey (projectObject basePath (splitFields fs) o) k = some v ↔
      (k = "href" ∧ v = makeUrl basePath o) ∨
      (k ≠ "href" ∧ k ∈ splitFields fs ∧ lookupKey o k = some v)) := by
  refine ⟨rfl, ?_, rfl, ?_⟩
  · intro oid hid
    simp [makeUrl, getProp, hid]
  · unfold projectObject
    rw [lookupKey_setKey, lookupKey_pick]
    by_cases hk : k = "href"
    · subst hk
      simp
      exact eq_comm
    · have hk2 : ¬ ("href" = k) := fun h => hk h.symm
      rw [if_neg hk2]
      by_cases hmem : k ∈ splitFields fs
      · cases ho : lookupKey o k with
        | none => simp [hmem, ho, hk]
        | some w => simp [hmem, ho, hk]
      · simp [hmem, hk]

/-- C7 witness: one resource projected without and with a fields list; the
requested-but-absent name `missing` is omitted, `name_label` is kept, and
`href` is the synthesized link. -/
theorem C7_projection_shape_witness :
    renderResults "/rest/v0/vms" none [[("id", "a")]] =
      [[("id", "a")]].map (fun ob => Rendered.href (makeUrl "/rest/v0/vms" ob)) ∧
    makeUrl "/rest/v0/vms" [("id", "a"), ("name_label", "n")] = "/rest/v0/vms" ++ "/" ++ "a" ∧
    lookupKey (projectObject "/rest/v0/vms" (splitFields "name_label,missing")
      [("id", "a"), ("name_label", "n")]) "name_label" = some "n" ∧
    lookupKey (projectObject "/rest/v0/vms" (splitFields "name_label,missing")
      [("id", "a"), ("name_label", "n")]) "href"
      = some (makeUrl "/rest/v0/vms" [("id", "a"), ("name_label", "n")]) ∧
    ¬ lookupKey (projectObject "/rest/v0/vms" (splitFields "name_label,missing")
      [("id", "a"), ("name_label", "n")]) "missing" = some "x" := by
  have h1 := C7_projection_shape "/rest/v0/vms" "name_label,missing" [[("id", "a")]]
    [("id", "a"), ("name_label", "n")] "name_label" "n"
  have h2 := C7_projection_shape "/rest/v0/vms" "name_label,missing" [[("id", "a")]]
    [("id", "a"), ("name_label", "n")] "href"
    (makeUrl "/rest/v0/vms" [("id", "a"), ("name_label", "n")])
  have h3 := C7_projection_shape "/rest/v0/vms" "name_label,missing" [[("id", "a")]]
    [("id", "a"), ("name_label", "n")] "missing" "x"
  refine ⟨h1.1, h1.2.1 "a" rfl, ?_, ?_, ?_⟩
  · exact h1.2.2.2.mpr (Or.inr ⟨by decide, by decide, rfl⟩)
  · exact h2.2.2.2.mpr (Or.inl ⟨rfl, rfl⟩)
  · intro hc
    rcases h3.2.2.2.mp hc with ⟨h, _⟩ | ⟨_, _, h⟩
    · exact absurd h (by decide)
    · exact absurd h (by decide)

end RestApi
